import Mathlib

/-!
# MSIKLM: keyboard backlight controller (src/msiklm.c)

A shallow embedding of the parsing and report-encoding functions of `msiklm.c`
together with theorems about them.

Conventions of the embedding

* A C `int` and a value of a C `enum` type are an `Int`; the sentinel `-1` that the parsers
  store into an enum variable is the integer `-1`.
* A `byte` (`unsigned char`) is a `Nat`; a conversion to `byte` is `toByte`, reduction mod 256.
* A `const char*` is an `Option (List Nat)`: `none` is the `NULL` pointer, `some s` points to
  the bytes `s` followed by the terminating NUL. Reading at the index `s.length` yields that NUL.
* The constants of the header `msiklm.h` (enumerators and preset colors) are the fields of
  `Header`; every function that uses them takes the header as its first argument.
* `hid_send_feature_report` belongs to the external HID library; it is a field of `Transport`.
-/

namespace MSIKLM

/-! ## Strings and bytes -/

/-- The bytes of a string literal of the source (all literals of `msiklm.c` are ASCII). -/
def cstr (s : String) : List Nat := s.toList.map Char.toNat

/-- The expression `s[i]` for a NUL-terminated string: the byte at `i`, the terminator past
the last byte. -/
def char_at (s : List Nat) (i : Nat) : Nat := s.getD i 0

/-- The pointer `s + n`. -/
def advance (s : List Nat) (n : Nat) : List Nat := s.drop n

/-- The C library `strlen`: number of bytes before the first NUL. -/
def strlen : List Nat → Nat
  | [] => 0
  | c :: cs => if c = 0 then 0 else strlen cs + 1

/-- The C library `strcmp`: difference of the first pair of bytes that differ, `0` when
both strings end together. -/
def strcmp : List Nat → List Nat → Int
  | [], [] => 0
  | [], b :: _ => 0 - (b : Int)
  | a :: _, [] => (a : Int)
  | a :: as, b :: bs =>
    if a ≠ b then (a : Int) - (b : Int) else if a = 0 then 0 else strcmp as bs

/-- A string as the C runtime sees it: no byte before the terminator is NUL. -/
def NulFree (s : List Nat) : Prop := ∀ b ∈ s, b ≠ 0

instance (s : List Nat) : Decidable (NulFree s) := by
  unfold NulFree; infer_instance

/-- Conversion of an `int` to `byte` (`unsigned char`). -/
def toByte (x : Int) : Nat := (x % 256).toNat

/-! ## Types and constants of `msiklm.h` -/

/-- Modelled from the spec: the struct `color_t` is declared in `msiklm.h`, which is not
among the sources; the spec (section 3) gives it three 8-bit channels, and `msiklm.c` names
them `red`, `green`, `blue`. A channel is a `byte`, a `Nat` below 256. -/
structure color_t where
  red : Nat
  green : Nat
  blue : Nat
deriving DecidableEq, Repr

/-- The constants that `msiklm.c` takes from `msiklm.h`: the enumerators of `enum region`,
`enum brightness` and `enum mode`, and the nine preset colors. The header is not among the
sources, so the values are parameters; what a theorem needs of them is a hypothesis. -/
structure Header where
  left : Int
  middle : Int
  right : Int
  logo : Int
  front_left : Int
  front_right : Int
  mouse : Int
  off : Int
  low : Int
  medium : Int
  high : Int
  normal : Int
  gaming : Int
  breathe : Int
  demo : Int
  wave : Int
  none : color_t
  red : color_t
  orange : color_t
  yellow : color_t
  green : color_t
  cyan : color_t
  blue : color_t
  purple : color_t
  white : color_t

/-! ## `hex` and `parse_color` -/

/-- The function `hex` (msiklm.c:12-21); the argument is an `unsigned char`. -/
def hex (c : Nat) : Int :=
  if 48 ≤ c ∧ c ≤ 57 then (c : Int) - 48              -- '0' .. '9'
  else if 65 ≤ c ∧ c ≤ 70 then 10 + (c : Int) - 65    -- 'A' .. 'F'
  else if 97 ≤ c ∧ c ≤ 102 then 10 + (c : Int) - 97   -- 'a' .. 'f'
  else 0

/-- The local table `color_map` of `parse_color` (msiklm.c:31-40). -/
def color_map (H : Header) : List (List Nat × color_t) :=
  [ (cstr "none", H.none),
    (cstr "red", H.red),
    (cstr "orange", H.orange),
    (cstr "yellow", H.yellow),
    (cstr "green", H.green),
    (cstr "cyan", H.cyan),
    (cstr "blue", H.blue),
    (cstr "purple", H.purple),
    (cstr "white", H.white) ]

/-- The loop of `parse_color` (msiklm.c:59-66) over the remaining entries of the table:
the color of the first entry whose name compares equal, `none` when the loop runs out. -/
def color_map_loop (color_str : List Nat) : List (List Nat × color_t) → Option color_t
  | [] => none
  | (name, color) :: rest =>
    if strcmp color_str name = 0 then some color else color_map_loop color_str rest

/-- The function `parse_color` (msiklm.c:29-71). The second argument is the content of
`*result` before the call; the value is the returned `int` and the content of `*result`
after the call. -/
def parse_color (H : Header) (color_str : Option (List Nat)) (result : color_t) :
    Int × color_t :=
  match color_str with
  | none => (-1, result)
  | some s =>
    if char_at s 0 = 48 ∧ char_at s 1 = 120 then       -- '0', 'x'
      let hex_value := advance s 2
      if strlen hex_value = 6 then
        (0, { red := toByte (hex (char_at hex_value 0) * 16 + hex (char_at hex_value 1)),
              green := toByte (hex (char_at hex_value 2) * 16 + hex (char_at hex_value 3)),
              blue := toByte (hex (char_at hex_value 4) * 16 + hex (char_at hex_value 5)) })
      else (-1, result)
    else
      match color_map_loop s (color_map H) with
      | some color => (0, color)
      | none => (-1, result)

/-! ## `parse_brightness` and `parse_mode` -/

/-- The function `parse_brightness` (msiklm.c:78-107): a `switch` on the first byte, then a
full `strcmp` against the word of that case. -/
def parse_brightness (H : Header) (brightness_str : Option (List Nat)) : Int :=
  match brightness_str with
  | none => -1
  | some s =>
    if char_at s 0 = 104 then                                   -- case 'h'
      if strcmp s (cstr "high") = 0 then H.high else -1
    else if char_at s 0 = 109 then                              -- case 'm'
      if strcmp s (cstr "medium") = 0 then H.medium else -1
    else if char_at s 0 = 108 then                              -- case 'l'
      if strcmp s (cstr "low") = 0 then H.low else -1
    else if char_at s 0 = 111 then                              -- case 'o'
      if strcmp s (cstr "off") = 0 then H.off else -1
    else -1

/-- The function `parse_mode` (msiklm.c:114-148). -/
def parse_mode (H : Header) (mode_str : Option (List Nat)) : Int :=
  match mode_str with
  | none => -1
  | some s =>
    if char_at s 0 = 110 then                                   -- case 'n'
      if strcmp s (cstr "normal") = 0 then H.normal else -1
    else if char_at s 0 = 103 then                              -- case 'g'
      if strcmp s (cstr "gaming") = 0 then H.gaming else -1
    else if char_at s 0 = 98 then                               -- case 'b'
      if strcmp s (cstr "breathe") = 0 then H.breathe else -1
    else if char_at s 0 = 100 then                              -- case 'd'
      if strcmp s (cstr "demo") = 0 then H.demo else -1
    else if char_at s 0 = 119 then                              -- case 'w'
      if strcmp s (cstr "wave") = 0 then H.wave else -1
    else -1

/-! ## Double-precision arithmetic

`set_color` computes the attenuated channels in the C type `double`. The finite values of
that type are the numbers `m * 2^e`; every operation below returns the exact result rounded
to the nearest value with a 53-bit significand, ties to even (IEEE 754 binary64, the default
rounding mode). Infinities and NaN are not represented: the operands that `set_color`
produces from a C `int` and a `byte` stay far inside the finite range. -/

/-- A finite value of the C type `double`: the number `m * 2^e`. -/
structure double where
  m : Int
  e : Int
deriving DecidableEq, Repr

/-- Number of binary digits of `n`, by halving at most `fuel` times. -/
def bit_length_aux : Nat → Nat → Nat
  | 0, _ => 0
  | fuel + 1, n => if n = 0 then 0 else bit_length_aux fuel (n / 2) + 1

/-- Number of binary digits of `n` (`0` for `0`). -/
def bit_length (n : Nat) : Nat := bit_length_aux n n

/-- The integer nearest to `a / b`, the even one of the two when `a / b` lies half way. -/
def round_half_even (a b : Nat) : Nat :=
  if 2 * (a % b) < b then a / b
  else if b < 2 * (a % b) then a / b + 1
  else if (a / b) % 2 = 0 then a / b
  else a / b + 1

/-- The `double` nearest to `± (n / d) * 2^k` (`neg` gives the sign, `d` is not `0`).
The significand has 53 bits, or fewer below the smallest normal binade (quantum `2^-1074`). -/
def double.round (neg : Bool) (n d : Nat) (k : Int) : double :=
  if n = 0 then { m := 0, e := 0 }
  else
    let n1 := if 0 ≤ k then n * 2 ^ k.toNat else n
    let d1 := if 0 ≤ k then d else d * 2 ^ (-k).toNat
    -- 2^(e0-1) < n1/d1 < 2^(e0+1)
    let e0 : Int := (bit_length n1 : Int) - (bit_length d1 : Int)
    let ge : Bool := if 0 ≤ e0 then d1 * 2 ^ e0.toNat ≤ n1 else d1 ≤ n1 * 2 ^ (-e0).toNat
    -- 2^ex ≤ n1/d1 < 2^(ex+1)
    let ex : Int := if ge then e0 else e0 - 1
    let q : Int := max (ex - 52) (-1074)
    let mant : Nat :=
      if 0 ≤ q then round_half_even n1 (d1 * 2 ^ q.toNat)
      else round_half_even (n1 * 2 ^ (-q).toNat) d1
    { m := if neg then -(mant : Int) else (mant : Int), e := q }

/-- Conversion of a C integer to `double`. -/
def double.of_int (i : Int) : double :=
  double.round (decide (i < 0)) i.natAbs 1 0

/-- The operator `/` on `double` (the divisor is not zero). -/
def double.div (a b : double) : double :=
  double.round (xor (decide (a.m < 0)) (decide (b.m < 0))) a.m.natAbs b.m.natAbs (a.e - b.e)

/-- The operator `*` on `double`. -/
def double.mul (a b : double) : double :=
  double.round (xor (decide (a.m < 0)) (decide (b.m < 0))) (a.m.natAbs * b.m.natAbs) 1
    (a.e + b.e)

/-- The operator `+` on `double`. -/
def double.add (a b : double) : double :=
  let e := min a.e b.e
  let s : Int := a.m * 2 ^ (a.e - e).toNat + b.m * 2 ^ (b.e - e).toNat
  double.round (decide (s < 0)) s.natAbs 1 e

/-- The integer part of a `double` (rounding toward zero), as in a conversion to an
integer type. -/
def double.trunc (a : double) : Int :=
  if 0 ≤ a.e then a.m * 2 ^ a.e.toNat else Int.tdiv a.m (2 ^ (-a.e).toNat)

/-- The cast `(byte)x` of a `double`. C defines it when the integer part of `x` is in
`0..255`; outside that range the integer part is reduced mod 256. -/
def double.to_byte (a : double) : Nat := toByte (double.trunc a)

/-! ## The report encoders `set_color` and `set_mode` -/

/-- The external HID library: `hid_send_feature_report dev data length` returns the `int`
result of the transmission and the device state after it. -/
structure Transport (σ : Type) where
  hid_send_feature_report : σ → List Nat → Nat → Int × σ

/-- What a call of an encoder did: the returned `int`, the device afterwards, and the
calls of `hid_send_feature_report` it made, in order, each with its buffer and length. -/
structure Outcome (σ : Type) where
  ret : Int
  dev : σ
  sent : List (List Nat × Nat)

/-- The function `set_color` (msiklm.c:183-226). -/
def set_color {σ : Type} (H : Header) (T : Transport σ) (dev : σ) (color : color_t)
    (region : Int) (brightness : Int) : Outcome σ :=
  if region = H.left ∨ region = H.middle ∨ region = H.right ∨ region = H.logo ∨
      region = H.front_left ∨ region = H.front_right ∨ region = H.mouse then
    let color : color_t :=
      if brightness = H.medium ∨ brightness = H.low ∨ brightness = H.off then
        let factor : double :=
          double.add (double.div (double.of_int brightness) { m := -3, e := 0 })
            { m := 1, e := 0 }
        { red := double.to_byte (double.mul factor (double.of_int color.red)),
          green := double.to_byte (double.mul factor (double.of_int color.green)),
          blue := double.to_byte (double.mul factor (double.of_int color.blue)) }
      else color
    let buffer : List Nat :=
      [1, 2, 64, toByte region, color.red, color.green, color.blue, 236]
    let r := T.hid_send_feature_report dev buffer 8
    { ret := r.1, dev := r.2, sent := [(buffer, 8)] }
  else
    { ret := -1, dev := dev, sent := [] }

/-- The function `set_mode` (msiklm.c:234-251). -/
def set_mode {σ : Type} (H : Header) (T : Transport σ) (dev : σ) (mode : Int) : Outcome σ :=
  if mode ≠ H.normal ∧ mode ≠ H.gaming ∧ mode ≠ H.breathe ∧ mode ≠ H.demo ∧
      mode ≠ H.wave then
    { ret := -1, dev := dev, sent := [] }
  else
    let buffer : List Nat := [1, 2, 65, toByte mode, 0, 0, 0, 236]
    let r := T.hid_send_feature_report dev buffer 8
    { ret := r.1, dev := r.2, sent := [(buffer, 8)] }

/-! ## Specification-side vocabulary -/

/-- The nine preset names of the spec, in the order of the catalog. -/
def preset_names : List (List Nat) :=
  [cstr "none", cstr "red", cstr "orange", cstr "yellow", cstr "green", cstr "cyan",
   cstr "blue", cstr "purple", cstr "white"]

/-- The success condition that the spec gives for `parse_color`: the token is present and
is `"0x"` followed by exactly 6 characters, or is one of the nine preset names. -/
def is_color_token (tok : Option (List Nat)) : Prop :=
  ∃ s, tok = some s ∧
    ((∃ body : List Nat, body.length = 6 ∧ s = cstr "0x" ++ body) ∨ s ∈ preset_names)

/-- The four brightness words of the spec. -/
def brightness_words : List (List Nat) :=
  [cstr "off", cstr "low", cstr "medium", cstr "high"]

/-- The five mode words of the spec. -/
def mode_words : List (List Nat) :=
  [cstr "normal", cstr "gaming", cstr "breathe", cstr "demo", cstr "wave"]

/-- The token is exactly one of the given words. -/
def is_word (words : List (List Nat)) (tok : Option (List Nat)) : Prop :=
  ∃ w ∈ words, tok = some w

/-- The enumerators of `enum brightness`: the valid levels. -/
def Header.levels (H : Header) : List Int := [H.off, H.low, H.medium, H.high]

/-- The enumerators of `enum mode`: the valid modes. -/
def Header.modes (H : Header) : List Int := [H.normal, H.gaming, H.breathe, H.demo, H.wave]

/-- The enumerators of `enum region`: the valid regions. -/
def Header.regions (H : Header) : List Int :=
  [H.left, H.middle, H.right, H.logo, H.front_left, H.front_right, H.mouse]

/-- The characters the spec accepts as hexadecimal digits: `0-9`, `A-F`, `a-f`. -/
def is_hex_digit (c : Nat) : Prop := c ∈ cstr "0123456789ABCDEFabcdef"

instance (c : Nat) : Decidable (is_hex_digit c) := by
  unfold is_hex_digit; infer_instance

/-- The base-16 value of a hexadecimal digit: its position among the sixteen digits,
written in upper case or in lower case. -/
def base16_value (c : Nat) : Nat :=
  if c ∈ cstr "0123456789ABCDEF" then (cstr "0123456789ABCDEF").indexOf c
  else (cstr "0123456789abcdef").indexOf c

/-- The base-16 value of the two-digit numeral `hi lo`. -/
def base16_pair (hi lo : Nat) : Nat := 16 * base16_value hi + base16_value lo

/-- The digit value of the tolerant decoding of the spec: the base-16 value of a
hexadecimal digit, `0` for every other character. -/
def tolerant_value (c : Nat) : Nat := if is_hex_digit c then base16_value c else 0

/-- The byte that the tolerant decoding gives to the two characters `hi lo`. -/
def tolerant_pair (hi lo : Nat) : Nat := 16 * tolerant_value hi + tolerant_value lo

/-- The attenuation of the spec in exact arithmetic: the channel `c` multiplied by the
factor `1 - index / 3` and truncated to an integer. -/
def exact_attenuation (index c : Nat) : Int := ⌊(c : ℚ) * (1 - (index : ℚ) / 3)⌋

/-- Byte `i` of the first report that an encoder call handed to the transport (`0` when
it sent none, or when the report is shorter). -/
def Outcome.report_byte {σ : Type} (o : Outcome σ) (i : Nat) : Nat :=
  match o.sent with
  | [] => 0
  | (buffer, _) :: _ => buffer.getD i 0

/-- The channel of a color that a set-color report carries at the offset `i`: red at 4,
green at 5, blue at 6. -/
def color_t.at_offset (color : color_t) (i : Nat) : Nat :=
  if i = 4 then color.red else if i = 5 then color.green else color.blue

/-- Modelled from the spec: the enumerators of `enum mode` are declared in `msiklm.h`, which
is not among the sources. The spec (section 3) says of the modes that each is "mapped to a
distinct small integer that is transmitted verbatim as the mode byte", and its wire format
(section 6) makes every field a single unsigned byte: the five codes are pairwise distinct
and each of them is a byte value. -/
def Header.mode_codes_per_spec (H : Header) : Prop :=
  H.modes.Nodup ∧ ∀ m ∈ H.modes, 0 ≤ m ∧ m < 256

instance (H : Header) : Decidable H.mode_codes_per_spec := by
  unfold Header.mode_codes_per_spec; infer_instance

/-! ## A concrete header and transport -/

/-- An instance of the header constants on which the functions can be evaluated: the
brightness indices of the spec (`high = 0`, `medium = 1`, `low = 2`, `off = 3`), the regions
and the modes numbered from 1 in the order in which the spec lists them, and the presets as
plain RGB triples (`none` all zero). The theorems hold for every header; this one only
supplies their concrete instances. -/
def sample_header : Header :=
  { left := 1, middle := 2, right := 3, logo := 4, front_left := 5, front_right := 6,
    mouse := 7,
    off := 3, low := 2, medium := 1, high := 0,
    normal := 1, gaming := 2, breathe := 3, demo := 4, wave := 5,
    none := ⟨0, 0, 0⟩, red := ⟨255, 0, 0⟩, orange := ⟨255, 128, 0⟩, yellow := ⟨255, 255, 0⟩,
    green := ⟨0, 255, 0⟩, cyan := ⟨0, 255, 255⟩, blue := ⟨0, 0, 255⟩,
    purple := ⟨255, 0, 255⟩, white := ⟨255, 255, 255⟩ }

/-- A transport whose device state counts the reports received and that answers each call
with the number of bytes it was given. -/
def counting_transport : Transport Nat :=
  { hid_send_feature_report := fun dev _ length => ((length : Int), dev + 1) }

/-- A transport that rejects every report with the failure value `-1`. -/
def failing_transport : Transport Nat :=
  { hid_send_feature_report := fun dev _ _ => (-1, dev) }

/-! # Theorems -/

/-! ## Lemmas on the C library functions -/

theorem nulFree_cons {c : Nat} {s : List Nat} (h : NulFree (c :: s)) : c ≠ 0 ∧ NulFree s :=
  ⟨h c (List.mem_cons_self c s), fun b hb => h b (List.mem_cons_of_mem c hb)⟩

theorem strlen_eq_length : ∀ (s : List Nat), NulFree s → strlen s = s.length
  | [], _ => rfl
  | c :: cs, h => by
    have hc := nulFree_cons h
    simp [strlen, hc.1, strlen_eq_length cs hc.2]

theorem strcmp_eq_zero_iff :
    ∀ (a b : List Nat), NulFree a → NulFree b → (strcmp a b = 0 ↔ a = b)
  | [], [], _, _ => by simp [strcmp]
  | [], b :: bs, _, hb => by
    have hb0 := (nulFree_cons hb).1
    simp only [strcmp]
    constructor
    · intro h; omega
    · intro h; cases h
  | a :: as, [], ha, _ => by
    have ha0 := (nulFree_cons ha).1
    simp only [strcmp]
    constructor
    · intro h; omega
    · intro h; cases h
  | a :: as, b :: bs, ha, hb => by
    have ha' := nulFree_cons ha
    have hb' := nulFree_cons hb
    have ih := strcmp_eq_zero_iff as bs ha'.2 hb'.2
    by_cases hab : a = b
    · subst hab
      simp [strcmp, ha'.1, ih]
    · simp only [strcmp, ne_eq, hab, not_false_eq_true, if_true]
      constructor
      · intro h; omega
      · intro h; cases h; exact absurd rfl hab

theorem strcmp_self (a : List Nat) (h : NulFree a) : strcmp a a = 0 :=
  (strcmp_eq_zero_iff a a h h).2 rfl


/-! ## Lemmas on `hex` -/

theorem cstr_0x : cstr "0x" = [48, 120] := by decide

/-- On a hexadecimal digit `hex` returns the base-16 value; the digit is not NUL and its
value is below 16. -/
theorem hex_of_is_hex_digit {c : Nat} (h : is_hex_digit c) :
    hex c = (base16_value c : Int) ∧ c ≠ 0 ∧ base16_value c < 16 := by
  have h' : c ∈ [48, 49, 50, 51, 52, 53, 54, 55, 56, 57, 65, 66, 67, 68, 69, 70,
      97, 98, 99, 100, 101, 102] := h
  simp only [List.mem_cons, List.mem_singleton, List.not_mem_nil, or_false] at h'
  rcases h' with h | h | h | h | h | h | h | h | h | h | h | h | h | h | h | h | h | h | h |
    h | h | h <;> subst h <;> decide

theorem toByte_pair {a b : Nat} (ha : a < 16) (hb : b < 16) :
    toByte ((a : Int) * 16 + (b : Int)) = 16 * a + b := by
  unfold toByte
  omega


/-! ## C1: hexadecimal colors -/

/-- C1: for every 6-character body of hexadecimal digits (`0-9`, `A-F`, `a-f`),
`parse_color` applied to `"0x"` followed by the body returns 0 and writes red, green and
blue equal to the base-16 values of the character pairs (0,1), (2,3) and (4,5) of the body,
upper and lower case digits counting the same; `"0xFF8000"` gives (255, 128, 0). -/
theorem parse_color_hex (H : Header) (r0 : color_t) (body : List Nat)
    (hlen : body.length = 6) (hdig : ∀ c ∈ body, is_hex_digit c) :
    parse_color H (some (cstr "0x" ++ body)) r0
        = (0, { red := base16_pair (body.getD 0 0) (body.getD 1 0),
                green := base16_pair (body.getD 2 0) (body.getD 3 0),
                blue := base16_pair (body.getD 4 0) (body.getD 5 0) })
      ∧ parse_color H (some (cstr "0xFF8000")) r0 = (0, { red := 255, green := 128, blue := 0 })
      ∧ parse_color H (some (cstr "0xff8000")) r0 = (0, { red := 255, green := 128, blue := 0 }) := by
  refine ⟨?_, rfl, rfl⟩
  match body, hlen, hdig with
  | [c0, c1, c2, c3, c4, c5], _, hdig =>
    obtain ⟨e0, n0, b0⟩ := hex_of_is_hex_digit (hdig c0 (by simp))
    obtain ⟨e1, n1, b1⟩ := hex_of_is_hex_digit (hdig c1 (by simp))
    obtain ⟨e2, n2, b2⟩ := hex_of_is_hex_digit (hdig c2 (by simp))
    obtain ⟨e3, n3, b3⟩ := hex_of_is_hex_digit (hdig c3 (by simp))
    obtain ⟨e4, n4, b4⟩ := hex_of_is_hex_digit (hdig c4 (by simp))
    obtain ⟨e5, n5, b5⟩ := hex_of_is_hex_digit (hdig c5 (by simp))
    simp [parse_color, cstr_0x, char_at, advance, strlen, n0, n1, n2, n3, n4, n5,
      e0, e1, e2, e3, e4, e5, toByte_pair, b0, b1, b2, b3, b4, b5, base16_pair]

/-- Witness of C1 at the body `"1aB2c3"` with mixed case. -/
theorem parse_color_hex_witness :
    (cstr "1aB2c3").length = 6 ∧ (∀ c ∈ cstr "1aB2c3", is_hex_digit c) ∧
      parse_color sample_header (some (cstr "0x1aB2c3")) ⟨7, 7, 7⟩
        = (0, { red := 26, green := 178, blue := 195 }) :=
  ⟨by decide, by decide,
    (parse_color_hex sample_header ⟨7, 7, 7⟩ (cstr "1aB2c3") (by decide) (by decide)).1⟩


/-! ## C2, C3: preset names and the success condition of `parse_color` -/

theorem preset_names_eq :
    preset_names = [[110, 111, 110, 101], [114, 101, 100], [111, 114, 97, 110, 103, 101],
      [121, 101, 108, 108, 111, 119], [103, 114, 101, 101, 110], [99, 121, 97, 110],
      [98, 108, 117, 101], [112, 117, 114, 112, 108, 101], [119, 104, 105, 116, 101]] := by
  decide

theorem color_map_names (H : Header) : (color_map H).map Prod.fst = preset_names := rfl

theorem nulFree_preset_names : ∀ name ∈ preset_names, NulFree name := by decide

/-- The table loop finds an entry exactly when the string is one of the names. -/
theorem color_map_loop_isSome_iff (s : List Nat) (hs : NulFree s) :
    ∀ (table : List (List Nat × color_t)), (∀ e ∈ table, NulFree e.1) →
      ((color_map_loop s table).isSome ↔ s ∈ table.map Prod.fst)
  | [], _ => by simp [color_map_loop]
  | (name, color) :: rest, h => by
    have hn : NulFree name := h (name, color) (List.mem_cons_self _ _)
    have ih := color_map_loop_isSome_iff s hs rest
      (fun e he => h e (List.mem_cons_of_mem _ he))
    have hcmp := strcmp_eq_zero_iff s name hs hn
    by_cases heq : s = name
    · subst heq
      simp [color_map_loop, strcmp_self s hs]
    · have hne : strcmp s name ≠ 0 := fun h0 => heq (hcmp.1 h0)
      simp [color_map_loop, hne, heq, ih]

theorem color_map_loop_preset (H : Header) (s : List Nat) (hs : NulFree s) :
    (color_map_loop s (color_map H)).isSome ↔ s ∈ preset_names := by
  have h := color_map_loop_isSome_iff s hs (color_map H) (by
    intro e he
    have : e.1 ∈ (color_map H).map Prod.fst := List.mem_map_of_mem Prod.fst he
    rw [color_map_names] at this
    exact nulFree_preset_names e.1 this)
  rw [color_map_names] at h
  exact h

/-- C2: for each of the nine preset names `parse_color` returns 0 and writes the color that
`color_map` pairs with that name; `none` is the all-zero color of the header. -/
theorem parse_color_preset (H : Header) (r0 : color_t) :
    parse_color H (some (cstr "none")) r0 = (0, H.none) ∧
    parse_color H (some (cstr "red")) r0 = (0, H.red) ∧
    parse_color H (some (cstr "orange")) r0 = (0, H.orange) ∧
    parse_color H (some (cstr "yellow")) r0 = (0, H.yellow) ∧
    parse_color H (some (cstr "green")) r0 = (0, H.green) ∧
    parse_color H (some (cstr "cyan")) r0 = (0, H.cyan) ∧
    parse_color H (some (cstr "blue")) r0 = (0, H.blue) ∧
    parse_color H (some (cstr "purple")) r0 = (0, H.purple) ∧
    parse_color H (some (cstr "white")) r0 = (0, H.white) ∧
    (H.none = { red := 0, green := 0, blue := 0 } →
      parse_color H (some (cstr "none")) r0 = (0, { red := 0, green := 0, blue := 0 })) := by
  refine ⟨rfl, rfl, rfl, rfl, rfl, rfl, rfl, rfl, rfl, ?_⟩
  intro h
  rw [← h]
  rfl

/-- Witness of C2 at the sample header: `"none"` parses to the all-zero color. -/
theorem parse_color_preset_witness :
    sample_header.none = { red := 0, green := 0, blue := 0 } ∧
      parse_color sample_header (some (cstr "none")) ⟨7, 7, 7⟩
        = (0, { red := 0, green := 0, blue := 0 }) :=
  ⟨rfl, (parse_color_preset sample_header ⟨7, 7, 7⟩).2.2.2.2.2.2.2.2.2 rfl⟩


/-- The return value of `parse_color` is 0 or -1. -/
theorem parse_color_ret (H : Header) (tok : Option (List Nat)) (r0 : color_t) :
    (parse_color H tok r0).1 = 0 ∨ (parse_color H tok r0).1 = -1 := by
  unfold parse_color
  cases tok with
  | none => simp
  | some s =>
    simp only
    split
    · split <;> simp
    · split <;> simp

/-- A string whose bytes 0 and 1 are `'0'` and `'x'` is `"0x"` followed by a remainder. -/
theorem prefix_0x {s : List Nat} (h : char_at s 0 = 48 ∧ char_at s 1 = 120) :
    ∃ rest, s = 48 :: 120 :: rest := by
  match s, h with
  | [], h => simp [char_at] at h
  | [a], h => simp [char_at] at h
  | a :: b :: rest, h =>
    simp [char_at] at h
    exact ⟨rest, by rw [h.1, h.2]⟩

/-- With the prefix `"0x"` the call succeeds exactly when 6 characters follow. -/
theorem parse_color_0x (H : Header) (r0 : color_t) (rest : List Nat) (h : NulFree rest) :
    (parse_color H (some (48 :: 120 :: rest)) r0).1 = 0 ↔ rest.length = 6 := by
  have hl := strlen_eq_length rest h
  by_cases h6 : rest.length = 6
  · simp [parse_color, char_at, advance, hl, h6]
  · simp [parse_color, char_at, advance, hl, h6]

/-- Without the prefix `"0x"` the call succeeds exactly on the preset names. -/
theorem parse_color_name (H : Header) (r0 : color_t) (s : List Nat) (hs : NulFree s)
    (hp : ¬ (char_at s 0 = 48 ∧ char_at s 1 = 120)) :
    (parse_color H (some s) r0).1 = 0 ↔ s ∈ preset_names := by
  have hl := color_map_loop_preset H s hs
  unfold parse_color
  simp only [hp, if_false]
  cases hc : color_map_loop s (color_map H) with
  | none => rw [hc] at hl; simp at hl; simp [hl]
  | some c => rw [hc] at hl; simp at hl; simp [hl]


theorem is_color_token_0x (rest : List Nat) :
    is_color_token (some (48 :: 120 :: rest)) ↔ rest.length = 6 := by
  unfold is_color_token
  constructor
  · rintro ⟨s, hs, h⟩
    cases hs
    rcases h with ⟨body, hlen, hb⟩ | hmem
    · rw [cstr_0x] at hb
      simp at hb
      rw [hb]; exact hlen
    · rw [preset_names_eq] at hmem
      simp at hmem
  · intro h
    exact ⟨_, rfl, Or.inl ⟨rest, h, by rw [cstr_0x]; rfl⟩⟩

theorem is_color_token_name (s : List Nat)
    (hp : ¬ (char_at s 0 = 48 ∧ char_at s 1 = 120)) :
    is_color_token (some s) ↔ s ∈ preset_names := by
  unfold is_color_token
  constructor
  · rintro ⟨s', hs, h⟩
    cases hs
    rcases h with ⟨body, _, hb⟩ | hmem
    · exfalso
      apply hp
      rw [hb, cstr_0x]
      simp [char_at]
    · exact hmem
  · intro h
    exact ⟨s, rfl, Or.inr h⟩

/-- C3: `parse_color` returns 0 if and only if the token is present and is either `"0x"`
followed by exactly 6 characters or exactly one of the nine preset names; for every other
input it returns -1. An absent token, the empty string, `"Red"`, `"0x12345"` and
`"0x1234567"` all return -1. -/
theorem parse_color_success_iff (H : Header) (tok : Option (List Nat)) (r0 : color_t)
    (hwf : ∀ s, tok = some s → NulFree s) :
    ((parse_color H tok r0).1 = 0 ↔ is_color_token tok) ∧
    ((parse_color H tok r0).1 = -1 ↔ ¬ is_color_token tok) ∧
    (parse_color H none r0).1 = -1 ∧
    (parse_color H (some (cstr "")) r0).1 = -1 ∧
    (parse_color H (some (cstr "Red")) r0).1 = -1 ∧
    (parse_color H (some (cstr "0x12345")) r0).1 = -1 ∧
    (parse_color H (some (cstr "0x1234567")) r0).1 = -1 := by
  have hiff : (parse_color H tok r0).1 = 0 ↔ is_color_token tok := by
    cases tok with
    | none => simp [parse_color, is_color_token]
    | some s =>
      have hs : NulFree s := hwf s rfl
      by_cases hp : char_at s 0 = 48 ∧ char_at s 1 = 120
      · obtain ⟨rest, rfl⟩ := prefix_0x hp
        rw [parse_color_0x H r0 rest (nulFree_cons (nulFree_cons hs).2).2,
          is_color_token_0x]
      · rw [parse_color_name H r0 s hs hp, is_color_token_name s hp]
  refine ⟨hiff, ?_, rfl, rfl, rfl, rfl, rfl⟩
  rw [← hiff]
  rcases parse_color_ret H tok r0 with h | h <;> rw [h] <;> decide

/-- Witness of C3 at the token `"0xZZZZZZ"`, which is accepted. -/
theorem parse_color_success_iff_witness :
    (∀ s, some (cstr "0xZZZZZZ") = some s → NulFree s) ∧
      ((parse_color sample_header (some (cstr "0xZZZZZZ")) ⟨7, 7, 7⟩).1 = 0 ↔
        is_color_token (some (cstr "0xZZZZZZ"))) :=
  ⟨by intro s h; cases h; decide,
    (parse_color_success_iff sample_header (some (cstr "0xZZZZZZ")) ⟨7, 7, 7⟩
      (by intro s h; cases h; decide)).1⟩


/-! ## C4, C5: `parse_brightness` and `parse_mode` -/

theorem strcmp_ne_zero {s w : List Nat} (hs : NulFree s) (hw : NulFree w) (h : s ≠ w) :
    strcmp s w ≠ 0 :=
  fun h0 => h ((strcmp_eq_zero_iff s w hs hw).1 h0)

theorem brightness_words_eq :
    brightness_words = [[111, 102, 102], [108, 111, 119], [109, 101, 100, 105, 117, 109],
      [104, 105, 103, 104]] := by
  decide

theorem mode_words_eq :
    mode_words = [[110, 111, 114, 109, 97, 108], [103, 97, 109, 105, 110, 103],
      [98, 114, 101, 97, 116, 104, 101], [100, 101, 109, 111], [119, 97, 118, 101]] := by
  decide

/-- A token that is none of the four brightness words parses to -1. -/
theorem parse_brightness_other (H : Header) (tok : Option (List Nat))
    (hwf : ∀ s, tok = some s → NulFree s) (h : ¬ is_word brightness_words tok) :
    parse_brightness H tok = -1 := by
  cases tok with
  | none => rfl
  | some s =>
    have hs : NulFree s := hwf s rfl
    have hne : ∀ w ∈ brightness_words, s ≠ w := fun w hw e => h ⟨w, hw, by rw [e]⟩
    have h1 := strcmp_ne_zero hs (by decide) (hne (cstr "high") (by decide))
    have h2 := strcmp_ne_zero hs (by decide) (hne (cstr "medium") (by decide))
    have h3 := strcmp_ne_zero hs (by decide) (hne (cstr "low") (by decide))
    have h4 := strcmp_ne_zero hs (by decide) (hne (cstr "off") (by decide))
    simp [parse_brightness, h1, h2, h3, h4]

/-- C4: `parse_brightness` returns the level of the word when the token is exactly one of
`"off"`, `"low"`, `"medium"`, `"high"`, and -1 for every other token; so it returns a valid
level if and only if the token is one of the four words. An absent token, `"HIGH"`, `"h"`,
`"hi"`, `"lower"` and `"offf"` give -1. -/
theorem parse_brightness_exact (H : Header) (tok : Option (List Nat))
    (hwf : ∀ s, tok = some s → NulFree s) :
    (parse_brightness H (some (cstr "off")) = H.off ∧
      parse_brightness H (some (cstr "low")) = H.low ∧
      parse_brightness H (some (cstr "medium")) = H.medium ∧
      parse_brightness H (some (cstr "high")) = H.high) ∧
    (¬ is_word brightness_words tok → parse_brightness H tok = -1) ∧
    ((-1 : Int) ∉ H.levels →
      (parse_brightness H tok ∈ H.levels ↔ is_word brightness_words tok)) ∧
    (parse_brightness H none = -1 ∧
      parse_brightness H (some (cstr "HIGH")) = -1 ∧
      parse_brightness H (some (cstr "h")) = -1 ∧
      parse_brightness H (some (cstr "hi")) = -1 ∧
      parse_brightness H (some (cstr "lower")) = -1 ∧
      parse_brightness H (some (cstr "offf")) = -1) := by
  refine ⟨⟨rfl, rfl, rfl, rfl⟩, parse_brightness_other H tok hwf, ?_,
    ⟨rfl, rfl, rfl, rfl, rfl, rfl⟩⟩
  intro hm
  constructor
  · intro hin
    by_contra hw
    rw [parse_brightness_other H tok hwf hw] at hin
    exact hm hin
  · rintro ⟨w, hw, rfl⟩
    rw [brightness_words_eq] at hw
    simp only [List.mem_cons, List.mem_singleton, List.not_mem_nil, or_false] at hw
    rcases hw with rfl | rfl | rfl | rfl
    · exact List.mem_cons_self _ _
    · exact List.mem_cons_of_mem _ (List.mem_cons_self _ _)
    · exact List.mem_cons_of_mem _ (List.mem_cons_of_mem _ (List.mem_cons_self _ _))
    · exact List.mem_cons_of_mem _ (List.mem_cons_of_mem _
        (List.mem_cons_of_mem _ (List.mem_cons_self _ _)))

/-- Witness of C4 at the sample header and the token `"medium"`. -/
theorem parse_brightness_exact_witness :
    (∀ s, some (cstr "medium") = some s → NulFree s) ∧
      (parse_brightness sample_header (some (cstr "medium")) ∈ sample_header.levels ↔
        is_word brightness_words (some (cstr "medium"))) :=
  ⟨by intro s h; cases h; decide,
    (parse_brightness_exact sample_header (some (cstr "medium"))
      (by intro s h; cases h; decide)).2.2.1 (by decide)⟩

/-- A token that is none of the five mode words parses to -1. -/
theorem parse_mode_other (H : Header) (tok : Option (List Nat))
    (hwf : ∀ s, tok = some s → NulFree s) (h : ¬ is_word mode_words tok) :
    parse_mode H tok = -1 := by
  cases tok with
  | none => rfl
  | some s =>
    have hs : NulFree s := hwf s rfl
    have hne : ∀ w ∈ mode_words, s ≠ w := fun w hw e => h ⟨w, hw, by rw [e]⟩
    have h1 := strcmp_ne_zero hs (by decide) (hne (cstr "normal") (by decide))
    have h2 := strcmp_ne_zero hs (by decide) (hne (cstr "gaming") (by decide))
    have h3 := strcmp_ne_zero hs (by decide) (hne (cstr "breathe") (by decide))
    have h4 := strcmp_ne_zero hs (by decide) (hne (cstr "demo") (by decide))
    have h5 := strcmp_ne_zero hs (by decide) (hne (cstr "wave") (by decide))
    simp [parse_mode, h1, h2, h3, h4, h5]

/-- C5: `parse_mode` returns the mode of the word when the token is exactly one of
`"normal"`, `"gaming"`, `"breathe"`, `"demo"`, `"wave"`, and -1 for every other token; so it
returns a valid mode if and only if the token is one of the five words. An absent token,
the empty string, `"Wave"` and words sharing only a first character with a mode word
(`"n"`, `"game"`, `"demon"`, `"waves"`, `"b"`) give -1. -/
theorem parse_mode_exact (H : Header) (tok : Option (List Nat))
    (hwf : ∀ s, tok = some s → NulFree s) :
    (parse_mode H (some (cstr "normal")) = H.normal ∧
      parse_mode H (some (cstr "gaming")) = H.gaming ∧
      parse_mode H (some (cstr "breathe")) = H.breathe ∧
      parse_mode H (some (cstr "demo")) = H.demo ∧
      parse_mode H (some (cstr "wave")) = H.wave) ∧
    (¬ is_word mode_words tok → parse_mode H tok = -1) ∧
    ((-1 : Int) ∉ H.modes → (parse_mode H tok ∈ H.modes ↔ is_word mode_words tok)) ∧
    (parse_mode H none = -1 ∧
      parse_mode H (some (cstr "")) = -1 ∧
      parse_mode H (some (cstr "Wave")) = -1 ∧
      parse_mode H (some (cstr "n")) = -1 ∧
      parse_mode H (some (cstr "game")) = -1 ∧
      parse_mode H (some (cstr "b")) = -1 ∧
      parse_mode H (some (cstr "demon")) = -1 ∧
      parse_mode H (some (cstr "waves")) = -1) := by
  refine ⟨⟨rfl, rfl, rfl, rfl, rfl⟩, parse_mode_other H tok hwf, ?_,
    ⟨rfl, rfl, rfl, rfl, rfl, rfl, rfl, rfl⟩⟩
  intro hm
  constructor
  · intro hin
    by_contra hw
    rw [parse_mode_other H tok hwf hw] at hin
    exact hm hin
  · rintro ⟨w, hw, rfl⟩
    rw [mode_words_eq] at hw
    simp only [List.mem_cons, List.mem_singleton, List.not_mem_nil, or_false] at hw
    rcases hw with rfl | rfl | rfl | rfl | rfl
    · exact List.mem_cons_self _ _
    · exact List.mem_cons_of_mem _ (List.mem_cons_self _ _)
    · exact List.mem_cons_of_mem _ (List.mem_cons_of_mem _ (List.mem_cons_self _ _))
    · exact List.mem_cons_of_mem _ (List.mem_cons_of_mem _
        (List.mem_cons_of_mem _ (List.mem_cons_self _ _)))
    · exact List.mem_cons_of_mem _ (List.mem_cons_of_mem _
        (List.mem_cons_of_mem _ (List.mem_cons_of_mem _ (List.mem_cons_self _ _))))

/-- Witness of C5 at the sample header and the token `"waves"`, which is rejected. -/
theorem parse_mode_exact_witness :
    (∀ s, some (cstr "waves") = some s → NulFree s) ∧
      ¬ is_word mode_words (some (cstr "waves")) ∧
      parse_mode sample_header (some (cstr "waves")) = -1 :=
  ⟨by intro s h; cases h; decide,
    by rintro ⟨w, hw, h⟩; cases h; revert hw; decide,
    (parse_mode_exact sample_header (some (cstr "waves"))
      (by intro s h; cases h; decide)).2.1
      (by rintro ⟨w, hw, h⟩; cases h; revert hw; decide)⟩


/-! ## C6 - C10: the report encoders -/

theorem mem_regions {H : Header} {region : Int} :
    region ∈ H.regions ↔
      (region = H.left ∨ region = H.middle ∨ region = H.right ∨ region = H.logo ∨
        region = H.front_left ∨ region = H.front_right ∨ region = H.mouse) := by
  simp [Header.regions]

theorem not_mem_modes {H : Header} {mode : Int} :
    mode ∉ H.modes ↔
      (mode ≠ H.normal ∧ mode ≠ H.gaming ∧ mode ≠ H.breathe ∧ mode ≠ H.demo ∧
        mode ≠ H.wave) := by
  simp [Header.modes]

theorem toByte_of_byte {x : Int} (h0 : 0 ≤ x) (h1 : x < 256) : (toByte x : Int) = x := by
  unfold toByte
  omega

/-- The report of `set_color` when the brightness is none of medium, low, off. -/
theorem set_color_plain {σ : Type} (H : Header) (T : Transport σ) (dev : σ) (color : color_t)
    (region brightness : Int) (hregion : region ∈ H.regions)
    (hb : ¬ (brightness = H.medium ∨ brightness = H.low ∨ brightness = H.off)) :
    (set_color H T dev color region brightness).sent
      = [([1, 2, 64, toByte region, color.red, color.green, color.blue, 236], 8)] := by
  unfold set_color
  rw [if_pos (mem_regions.1 hregion)]
  simp only [hb, if_false]

/-- C6: for every color and every valid region, `set_color` with brightness high hands
the transport exactly the 8-byte report `[1, 2, 64, region_code, r, g, b, 236]`, the color
unchanged; region left with color (10, 20, 30) gives `[1, 2, 64, left, 10, 20, 30, 236]`.
The region code is the region enumerator as a byte. -/
theorem set_color_high {σ : Type} (H : Header) (T : Transport σ) (dev : σ) (color : color_t)
    (region : Int) (hregion : region ∈ H.regions)
    (hhigh : H.high ∉ [H.medium, H.low, H.off]) :
    (set_color H T dev color region H.high).sent
        = [([1, 2, 64, toByte region, color.red, color.green, color.blue, 236], 8)] ∧
      (set_color H T dev { red := 10, green := 20, blue := 30 } H.left H.high).sent
        = [([1, 2, 64, toByte H.left, 10, 20, 30, 236], 8)] ∧
      (0 ≤ region → region < 256 → (toByte region : Int) = region) := by
  have hb : ¬ (H.high = H.medium ∨ H.high = H.low ∨ H.high = H.off) := by
    simpa using hhigh
  exact ⟨set_color_plain H T dev color region H.high hregion hb,
    set_color_plain H T dev _ H.left H.high (List.mem_cons_self _ _) hb,
    toByte_of_byte⟩

/-- Witness of C6: region left (code 1), color (10, 20, 30), brightness high. -/
theorem set_color_high_witness :
    sample_header.left ∈ sample_header.regions ∧
      sample_header.high ∉ [sample_header.medium, sample_header.low, sample_header.off] ∧
      (set_color sample_header counting_transport 0 ⟨10, 20, 30⟩ sample_header.left
          sample_header.high).sent = [([1, 2, 64, 1, 10, 20, 30, 236], 8)] :=
  ⟨by decide, by decide,
    (set_color_high sample_header counting_transport 0 ⟨10, 20, 30⟩ sample_header.left
      (by decide) (by decide)).1⟩

/-- C7: for every color, every brightness and every region value that is not one of the
seven valid regions, `set_color` returns -1 and makes no call to the transport; the device
is left as it was. -/
theorem set_color_invalid_region {σ : Type} (H : Header) (T : Transport σ) (dev : σ)
    (color : color_t) (region brightness : Int) (hregion : region ∉ H.regions) :
    (set_color H T dev color region brightness).ret = -1 ∧
      (set_color H T dev color region brightness).sent = [] ∧
      (set_color H T dev color region brightness).dev = dev := by
  unfold set_color
  rw [if_neg (fun h => hregion (mem_regions.2 h))]
  exact ⟨rfl, rfl, rfl⟩

/-- Witness of C7: region value 0 at the sample header, brightness low. -/
theorem set_color_invalid_region_witness :
    (0 : Int) ∉ sample_header.regions ∧
      (set_color sample_header counting_transport 0 ⟨10, 20, 30⟩ 0 sample_header.low).ret
        = -1 ∧
      (set_color sample_header counting_transport 0 ⟨10, 20, 30⟩ 0 sample_header.low).sent
        = [] :=
  ⟨by decide,
    (set_color_invalid_region sample_header counting_transport 0 ⟨10, 20, 30⟩ 0
      sample_header.low (by decide)).1,
    (set_color_invalid_region sample_header counting_transport 0 ⟨10, 20, 30⟩ 0
      sample_header.low (by decide)).2.1⟩

/-- The report of `set_mode` for a valid mode. -/
theorem set_mode_valid {σ : Type} (H : Header) (T : Transport σ) (dev : σ) (mode : Int)
    (hmode : mode ∈ H.modes) :
    set_mode H T dev mode
      = { ret := (T.hid_send_feature_report dev [1, 2, 65, toByte mode, 0, 0, 0, 236] 8).1,
          dev := (T.hid_send_feature_report dev [1, 2, 65, toByte mode, 0, 0, 0, 236] 8).2,
          sent := [([1, 2, 65, toByte mode, 0, 0, 0, 236], 8)] } := by
  unfold set_mode
  rw [if_neg (fun h => (not_mem_modes.2 h) hmode)]

/-- C8: for every one of the five valid modes `set_mode` hands the transport exactly the
8-byte report `[1, 2, 65, mode_code, 0, 0, 0, 236]`; mode wave gives
`[1, 2, 65, wave, 0, 0, 0, 236]`. The mode code is the mode enumerator as a byte. -/
theorem set_mode_report {σ : Type} (H : Header) (T : Transport σ) (dev : σ) (mode : Int)
    (hmode : mode ∈ H.modes) :
    (set_mode H T dev mode).sent = [([1, 2, 65, toByte mode, 0, 0, 0, 236], 8)] ∧
      (set_mode H T dev H.wave).sent = [([1, 2, 65, toByte H.wave, 0, 0, 0, 236], 8)] ∧
      (0 ≤ mode → mode < 256 → (toByte mode : Int) = mode) := by
  refine ⟨?_, ?_, toByte_of_byte⟩
  · rw [set_mode_valid H T dev mode hmode]
  · rw [set_mode_valid H T dev H.wave (by simp [Header.modes])]

/-- Witness of C8: mode wave (code 5) at the sample header. -/
theorem set_mode_report_witness :
    sample_header.wave ∈ sample_header.modes ∧
      (set_mode sample_header counting_transport 0 sample_header.wave).sent
        = [([1, 2, 65, 5, 0, 0, 0, 236], 8)] :=
  ⟨by decide, (set_mode_report sample_header counting_transport 0 sample_header.wave
    (by decide)).1⟩

/-- C9: for every mode value that is not one of the five valid modes, `set_mode` returns
-1 and makes no call to the transport; the device is left as it was. -/
theorem set_mode_invalid {σ : Type} (H : Header) (T : Transport σ) (dev : σ) (mode : Int)
    (hmode : mode ∉ H.modes) :
    (set_mode H T dev mode).ret = -1 ∧ (set_mode H T dev mode).sent = [] ∧
      (set_mode H T dev mode).dev = dev := by
  unfold set_mode
  rw [if_pos (not_mem_modes.1 hmode)]
  exact ⟨rfl, rfl, rfl⟩

/-- Witness of C9: the sentinel -1 of `parse_mode` at the sample header. -/
theorem set_mode_invalid_witness :
    (-1 : Int) ∉ sample_header.modes ∧
      (set_mode sample_header counting_transport 0 (-1)).ret = -1 ∧
      (set_mode sample_header counting_transport 0 (-1)).sent = [] :=
  ⟨by decide, (set_mode_invalid sample_header counting_transport 0 (-1) (by decide)).1,
    (set_mode_invalid sample_header counting_transport 0 (-1) (by decide)).2.1⟩


/-- C10: for every valid region (`set_color`) and every valid mode (`set_mode`) the encoder
calls `hid_send_feature_report` exactly once, with a buffer of 8 bytes and the length 8,
and returns exactly the integer that this call returned, whatever it is. -/
theorem encoders_pass_through {σ : Type} (H : Header) (T : Transport σ) (dev : σ)
    (color : color_t) (region brightness mode : Int)
    (hregion : region ∈ H.regions) (hmode : mode ∈ H.modes) :
    (∃ buffer : List Nat, buffer.length = 8 ∧
        (set_color H T dev color region brightness).sent = [(buffer, 8)] ∧
        (set_color H T dev color region brightness).ret
          = (T.hid_send_feature_report dev buffer 8).1 ∧
        (set_color H T dev color region brightness).dev
          = (T.hid_send_feature_report dev buffer 8).2) ∧
    (∃ buffer : List Nat, buffer.length = 8 ∧
        (set_mode H T dev mode).sent = [(buffer, 8)] ∧
        (set_mode H T dev mode).ret = (T.hid_send_feature_report dev buffer 8).1 ∧
        (set_mode H T dev mode).dev = (T.hid_send_feature_report dev buffer 8).2) := by
  constructor
  · unfold set_color
    rw [if_pos (mem_regions.1 hregion)]
    refine ⟨_, ?_, rfl, rfl, rfl⟩
    rfl
  · rw [set_mode_valid H T dev mode hmode]
    refine ⟨_, ?_, rfl, rfl, rfl⟩
    rfl

/-- Witness of C10: with a transport that fails with -1, and one that reports 8 bytes
written, the encoders return that value after a single call. -/
theorem encoders_pass_through_witness :
    sample_header.logo ∈ sample_header.regions ∧
      sample_header.gaming ∈ sample_header.modes ∧
      (∃ buffer : List Nat, buffer.length = 8 ∧
        (set_color sample_header failing_transport 0 ⟨90, 91, 92⟩ sample_header.logo
          sample_header.medium).sent = [(buffer, 8)] ∧
        (set_color sample_header failing_transport 0 ⟨90, 91, 92⟩ sample_header.logo
          sample_header.medium).ret = (failing_transport.hid_send_feature_report 0 buffer 8).1 ∧
        (set_color sample_header failing_transport 0 ⟨90, 91, 92⟩ sample_header.logo
          sample_header.medium).dev
            = (failing_transport.hid_send_feature_report 0 buffer 8).2) :=
  ⟨by decide, by decide,
    (encoders_pass_through sample_header failing_transport 0 ⟨90, 91, 92⟩ sample_header.logo
      sample_header.medium sample_header.gaming (by decide) (by decide)).1⟩


/-! ## C11, C12: the attenuation in double precision -/

/-- The factor `1 / (-3.0) + 1.0` of brightness index 1, as a `double`. -/
theorem factor_index_1 :
    double.add (double.div (double.of_int 1) { m := -3, e := 0 }) { m := 1, e := 0 }
      = { m := 6004799503160662, e := -53 } := by
  decide!

/-- The factor `2 / (-3.0) + 1.0` of brightness index 2, as a `double`. -/
theorem factor_index_2 :
    double.add (double.div (double.of_int 2) { m := -3, e := 0 }) { m := 1, e := 0 }
      = { m := 6004799503160662, e := -54 } := by
  decide!

/-- The factor `3 / (-3.0) + 1.0` of brightness index 3 is zero. -/
theorem factor_index_3 :
    double.add (double.div (double.of_int 3) { m := -3, e := 0 }) { m := 1, e := 0 }
      = { m := 0, e := 0 } := by
  decide!

/-- With the factor of index 1 every byte `c` becomes `2 * c / 3`: the rounding of the
product never crosses an integer. -/
theorem channel_index_1 : ∀ c : Nat, c < 256 →
    double.to_byte (double.mul { m := 6004799503160662, e := -53 } (double.of_int (c : Int)))
      = 2 * c / 3 := by
  decide!

/-- With the factor of index 2 every byte `c` becomes `c / 3`. -/
theorem channel_index_2 : ∀ c : Nat, c < 256 →
    double.to_byte (double.mul { m := 6004799503160662, e := -54 } (double.of_int (c : Int)))
      = c / 3 := by
  decide!

/-- With the factor zero every channel becomes 0. -/
theorem channel_index_3 (x : double) : double.to_byte (double.mul { m := 0, e := 0 } x) = 0 := by
  simp [double.mul, double.round, double.to_byte, double.trunc, toByte]


/-- The exact attenuation of the spec for the three indices: `floor(2c/3)`, `floor(c/3)`
and `0`. -/
theorem exact_attenuation_values (c : Nat) :
    exact_attenuation 1 c = ((2 * c / 3 : Nat) : Int) ∧
      exact_attenuation 2 c = ((c / 3 : Nat) : Int) ∧
      exact_attenuation 3 c = 0 := by
  refine ⟨?_, ?_, ?_⟩
  · have h : (c : ℚ) * (1 - ((1 : Nat) : ℚ) / 3) = (((2 * c : Nat) : Int) : ℚ) / ((3 : Nat) : ℚ) := by
      push_cast; ring
    unfold exact_attenuation
    rw [h, Rat.floor_intCast_div_natCast]
    norm_cast
  · have h : (c : ℚ) * (1 - ((2 : Nat) : ℚ) / 3) = (((c : Nat) : Int) : ℚ) / ((3 : Nat) : ℚ) := by
      push_cast; ring
    unfold exact_attenuation
    rw [h, Rat.floor_intCast_div_natCast]
    norm_cast
  · have h : (c : ℚ) * (1 - ((3 : Nat) : ℚ) / 3) = 0 := by
      push_cast; ring
    unfold exact_attenuation
    rw [h]
    exact Int.floor_zero

/-- The report of `set_color` when the brightness is one of medium, low, off: every channel
is the product with the factor, converted to `byte`. -/
theorem set_color_attenuated {σ : Type} (H : Header) (T : Transport σ) (dev : σ)
    (color : color_t) (region brightness : Int) (hregion : region ∈ H.regions)
    (hb : brightness = H.medium ∨ brightness = H.low ∨ brightness = H.off) :
    (set_color H T dev color region brightness).sent
      = [([1, 2, 64, toByte region,
          double.to_byte (double.mul
            (double.add (double.div (double.of_int brightness) { m := -3, e := 0 })
              { m := 1, e := 0 }) (double.of_int color.red)),
          double.to_byte (double.mul
            (double.add (double.div (double.of_int brightness) { m := -3, e := 0 })
              { m := 1, e := 0 }) (double.of_int color.green)),
          double.to_byte (double.mul
            (double.add (double.div (double.of_int brightness) { m := -3, e := 0 })
              { m := 1, e := 0 }) (double.of_int color.blue)),
          236], 8)] := by
  unfold set_color
  rw [if_pos (mem_regions.1 hregion)]
  simp only [hb, if_true]

/-- The reports of `set_color` at the brightness indices 1, 2 and 3. -/
theorem set_color_index {σ : Type} (H : Header) (T : Transport σ) (dev : σ)
    (color : color_t) (region : Int) (hregion : region ∈ H.regions)
    (hr : color.red < 256) (hg : color.green < 256) (hb : color.blue < 256) :
    (((1 : Int) = H.medium ∨ (1 : Int) = H.low ∨ (1 : Int) = H.off) →
      (set_color H T dev color region 1).sent
        = [([1, 2, 64, toByte region, 2 * color.red / 3, 2 * color.green / 3,
            2 * color.blue / 3, 236], 8)]) ∧
    (((2 : Int) = H.medium ∨ (2 : Int) = H.low ∨ (2 : Int) = H.off) →
      (set_color H T dev color region 2).sent
        = [([1, 2, 64, toByte region, color.red / 3, color.green / 3, color.blue / 3,
            236], 8)]) ∧
    (((3 : Int) = H.medium ∨ (3 : Int) = H.low ∨ (3 : Int) = H.off) →
      (set_color H T dev color region 3).sent
        = [([1, 2, 64, toByte region, 0, 0, 0, 236], 8)]) := by
  refine ⟨fun h => ?_, fun h => ?_, fun h => ?_⟩
  · rw [set_color_attenuated H T dev color region 1 hregion h, factor_index_1,
      channel_index_1 _ hr, channel_index_1 _ hg, channel_index_1 _ hb]
  · rw [set_color_attenuated H T dev color region 2 hregion h, factor_index_2,
      channel_index_2 _ hr, channel_index_2 _ hg, channel_index_2 _ hb]
  · rw [set_color_attenuated H T dev color region 3 hregion h, factor_index_3,
      channel_index_3, channel_index_3, channel_index_3]

/-- C11: with the brightness indices medium = 1, low = 2, off = 3, for every color with
byte channels and every valid region, the channel bytes that `set_color` sends are
`floor(2c/3)` for medium, `floor(c/3)` for low and `0` for off: the double-precision
computation agrees with the channel multiplied by `1 - index/3` in exact arithmetic and
truncated. -/
theorem set_color_attenuation {σ : Type} (H : Header) (T : Transport σ) (dev : σ)
    (color : color_t) (region : Int) (hregion : region ∈ H.regions)
    (hm : H.medium = 1) (hl : H.low = 2) (ho : H.off = 3)
    (hr : color.red < 256) (hg : color.green < 256) (hb : color.blue < 256) :
    (set_color H T dev color region H.medium).sent
        = [([1, 2, 64, toByte region, 2 * color.red / 3, 2 * color.green / 3,
            2 * color.blue / 3, 236], 8)] ∧
      (set_color H T dev color region H.low).sent
        = [([1, 2, 64, toByte region, color.red / 3, color.green / 3, color.blue / 3,
            236], 8)] ∧
      (set_color H T dev color region H.off).sent
        = [([1, 2, 64, toByte region, 0, 0, 0, 236], 8)] ∧
      (∀ c : Nat, exact_attenuation 1 c = ((2 * c / 3 : Nat) : Int) ∧
        exact_attenuation 2 c = ((c / 3 : Nat) : Int) ∧ exact_attenuation 3 c = 0) := by
  have h := set_color_index H T dev color region hregion hr hg hb
  refine ⟨?_, ?_, ?_, exact_attenuation_values⟩
  · rw [hm]; exact h.1 (Or.inl hm.symm)
  · rw [hl]; exact h.2.1 (Or.inr (Or.inl hl.symm))
  · rw [ho]; exact h.2.2 (Or.inr (Or.inr ho.symm))

/-- Witness of C11: color (3, 100, 255) on region left at the sample header. -/
theorem set_color_attenuation_witness :
    sample_header.left ∈ sample_header.regions ∧
      (set_color sample_header counting_transport 0 ⟨3, 100, 255⟩ sample_header.left
          sample_header.medium).sent = [([1, 2, 64, 1, 2, 66, 170, 236], 8)] ∧
      (set_color sample_header counting_transport 0 ⟨3, 100, 255⟩ sample_header.left
          sample_header.low).sent = [([1, 2, 64, 1, 1, 33, 85, 236], 8)] ∧
      (set_color sample_header counting_transport 0 ⟨3, 100, 255⟩ sample_header.left
          sample_header.off).sent = [([1, 2, 64, 1, 0, 0, 0, 236], 8)] :=
  ⟨by decide,
    (set_color_attenuation sample_header counting_transport 0 ⟨3, 100, 255⟩
      sample_header.left (by decide) rfl rfl rfl (by decide) (by decide) (by decide)).1,
    (set_color_attenuation sample_header counting_transport 0 ⟨3, 100, 255⟩
      sample_header.left (by decide) rfl rfl rfl (by decide) (by decide) (by decide)).2.1,
    (set_color_attenuation sample_header counting_transport 0 ⟨3, 100, 255⟩
      sample_header.left (by decide) rfl rfl rfl (by decide) (by decide) (by decide)).2.2.1⟩


theorem report_byte_of_sent {σ : Type} (o : Outcome σ) (buffer : List Nat) (n i : Nat)
    (h : o.sent = [(buffer, n)]) : o.report_byte i = buffer.getD i 0 := by
  unfold Outcome.report_byte
  rw [h]

/-- The channel bytes of the report at any brightness, with the indices 1, 2, 3 for
medium, low, off: at most the input channel. -/
theorem set_color_channel_le {σ : Type} (H : Header) (T : Transport σ) (dev : σ)
    (color : color_t) (region brightness : Int) (hregion : region ∈ H.regions)
    (hm : H.medium = 1) (hl : H.low = 2) (ho : H.off = 3)
    (hr : color.red < 256) (hg : color.green < 256) (hb : color.blue < 256)
    (i : Nat) (hi : i ∈ [4, 5, 6]) :
    (set_color H T dev color region brightness).report_byte i ≤ color.at_offset i := by
  have hidx := set_color_index H T dev color region hregion hr hg hb
  simp only [List.mem_cons, List.mem_singleton, List.not_mem_nil, or_false] at hi
  by_cases hatt : brightness = H.medium ∨ brightness = H.low ∨ brightness = H.off
  · rw [hm, hl, ho] at hatt
    rcases hatt with h | h | h
    · subst h
      have hs := hidx.1 (Or.inl hm.symm)
      rw [report_byte_of_sent _ _ _ i hs]
      rcases hi with rfl | rfl | rfl <;> simp [color_t.at_offset] <;> omega
    · subst h
      have hs := hidx.2.1 (Or.inr (Or.inl hl.symm))
      rw [report_byte_of_sent _ _ _ i hs]
      rcases hi with rfl | rfl | rfl <;> simp [color_t.at_offset] <;> omega
    · subst h
      have hs := hidx.2.2 (Or.inr (Or.inr ho.symm))
      rw [report_byte_of_sent _ _ _ i hs]
      rcases hi with rfl | rfl | rfl <;> simp [color_t.at_offset]
  · have hs := set_color_plain H T dev color region brightness hregion hatt
    rw [report_byte_of_sent _ _ _ i hs]
    rcases hi with rfl | rfl | rfl <;> simp [color_t.at_offset]

/-- C12: with the brightness indices medium = 1, low = 2, off = 3 and high different from
them, for every color with byte channels and every valid region each of the three channel
bytes that `set_color` sends is non-decreasing along off, low, medium, high; at high it is
the input channel, and at every brightness it is at most the input channel and below 256. -/
theorem set_color_monotone {σ : Type} (H : Header) (T : Transport σ) (dev : σ)
    (color : color_t) (region : Int) (hregion : region ∈ H.regions)
    (hm : H.medium = 1) (hl : H.low = 2) (ho : H.off = 3)
    (hh : H.high ∉ [H.medium, H.low, H.off])
    (hr : color.red < 256) (hg : color.green < 256) (hb : color.blue < 256)
    (i : Nat) (hi : i ∈ [4, 5, 6]) :
    (set_color H T dev color region H.off).report_byte i
        ≤ (set_color H T dev color region H.low).report_byte i ∧
      (set_color H T dev color region H.low).report_byte i
        ≤ (set_color H T dev color region H.medium).report_byte i ∧
      (set_color H T dev color region H.medium).report_byte i
        ≤ (set_color H T dev color region H.high).report_byte i ∧
      (set_color H T dev color region H.high).report_byte i = color.at_offset i ∧
      (∀ brightness : Int,
        (set_color H T dev color region brightness).report_byte i ≤ color.at_offset i ∧
        (set_color H T dev color region brightness).report_byte i < 256) := by
  have hidx := set_color_index H T dev color region hregion hr hg hb
  have h1 := hidx.1 (Or.inl hm.symm)
  have h2 := hidx.2.1 (Or.inr (Or.inl hl.symm))
  have h3 := hidx.2.2 (Or.inr (Or.inr ho.symm))
  have hnot : ¬ (H.high = H.medium ∨ H.high = H.low ∨ H.high = H.off) := by
    simpa using hh
  have h0 := set_color_plain H T dev color region H.high hregion hnot
  have hle := fun b => set_color_channel_le H T dev color region b hregion hm hl ho hr hg hb
    i hi
  have hlt : color.at_offset i < 256 := by
    unfold color_t.at_offset
    split
    · exact hr
    · split
      · exact hg
      · exact hb
  refine ⟨?_, ?_, ?_, ?_, fun b => ⟨hle b, lt_of_le_of_lt (hle b) hlt⟩⟩
  · rw [ho, hl, report_byte_of_sent _ _ _ i h3, report_byte_of_sent _ _ _ i h2]
    simp only [List.mem_cons, List.mem_singleton, List.not_mem_nil, or_false] at hi
    rcases hi with rfl | rfl | rfl <;> simp
  · rw [hl, hm, report_byte_of_sent _ _ _ i h2, report_byte_of_sent _ _ _ i h1]
    simp only [List.mem_cons, List.mem_singleton, List.not_mem_nil, or_false] at hi
    rcases hi with rfl | rfl | rfl <;> simp <;> omega
  · rw [hm, report_byte_of_sent _ _ _ i h1, report_byte_of_sent _ _ _ i h0]
    simp only [List.mem_cons, List.mem_singleton, List.not_mem_nil, or_false] at hi
    rcases hi with rfl | rfl | rfl <;> simp <;> omega
  · rw [report_byte_of_sent _ _ _ i h0]
    simp only [List.mem_cons, List.mem_singleton, List.not_mem_nil, or_false] at hi
    rcases hi with rfl | rfl | rfl <;> simp [color_t.at_offset]

/-- Witness of C12: the green channel (offset 5) of color (3, 100, 255) on region left at
the sample header. -/
theorem set_color_monotone_witness :
    sample_header.left ∈ sample_header.regions ∧
      sample_header.high ∉ [sample_header.medium, sample_header.low, sample_header.off] ∧
      (5 : Nat) ∈ [4, 5, 6] ∧
      (set_color sample_header counting_transport 0 ⟨3, 100, 255⟩ sample_header.left
          sample_header.off).report_byte 5
        ≤ (set_color sample_header counting_transport 0 ⟨3, 100, 255⟩ sample_header.left
          sample_header.low).report_byte 5 ∧
      (set_color sample_header counting_transport 0 ⟨3, 100, 255⟩ sample_header.left
          sample_header.low).report_byte 5
        ≤ (set_color sample_header counting_transport 0 ⟨3, 100, 255⟩ sample_header.left
          sample_header.medium).report_byte 5 :=
  ⟨by decide, by decide, by decide,
    (set_color_monotone sample_header counting_transport 0 ⟨3, 100, 255⟩ sample_header.left
      (by decide) rfl rfl rfl (by decide) (by decide) (by decide) (by decide) 5
      (by decide)).1,
    (set_color_monotone sample_header counting_transport 0 ⟨3, 100, 255⟩ sample_header.left
      (by decide) rfl rfl rfl (by decide) (by decide) (by decide) (by decide) 5
      (by decide)).2.1⟩


/-! ## C13: the layout of the reports -/

/-- The whole outcome of `set_color` for a valid region, in terms of the color sent. -/
theorem set_color_sent_shape {σ : Type} (H : Header) (T : Transport σ) (dev : σ)
    (color : color_t) (region brightness : Int) (hregion : region ∈ H.regions) :
    ∃ r g b : Nat, (set_color H T dev color region brightness).sent
      = [([1, 2, 64, toByte region, r, g, b, 236], 8)] := by
  unfold set_color
  rw [if_pos (mem_regions.1 hregion)]
  exact ⟨_, _, _, rfl⟩

/-- Counterexample to C13 as stated: a set-color report and a set-mode report, both for
valid arguments, differ at byte 2, which is 64 in the first and 65 in the second. -/
theorem report_byte_2_differs :
    sample_header.left ∈ sample_header.regions ∧
      sample_header.wave ∈ sample_header.modes ∧
      (set_color sample_header counting_transport 0 ⟨10, 20, 30⟩ sample_header.left
          sample_header.high).report_byte 2 = 64 ∧
      (set_mode sample_header counting_transport 0 sample_header.wave).report_byte 2 = 65 ∧
      (set_color sample_header counting_transport 0 ⟨10, 20, 30⟩ sample_header.left
          sample_header.high).report_byte 2
        ≠ (set_mode sample_header counting_transport 0 sample_header.wave).report_byte 2 := by
  decide

/-- C13 (amended): every report that `set_color` or `set_mode` hands to the transport is
exactly 8 bytes; bytes 0 and 1 are 1 and 2 and byte 7 is 236 in every report, and byte 2 is
fixed per request kind, 64 for set-color and 65 for set-mode. So two reports of the same
kind agree on bytes 0, 1, 2 and 7, and two reports of different kinds on bytes 0, 1 and 7. -/
theorem report_layout {σ : Type} (H : Header) (T T' : Transport σ) (dev dev' : σ)
    (color color' : color_t) (region region' brightness brightness' mode mode' : Int)
    (hregion : region ∈ H.regions) (hregion' : region' ∈ H.regions)
    (hmode : mode ∈ H.modes) (hmode' : mode' ∈ H.modes) :
    (∃ buffer : List Nat, buffer.length = 8 ∧
        (set_color H T dev color region brightness).sent = [(buffer, 8)]) ∧
      (∃ buffer : List Nat, buffer.length = 8 ∧
        (set_mode H T dev mode).sent = [(buffer, 8)]) ∧
      ((set_color H T dev color region brightness).report_byte 0 = 1 ∧
        (set_color H T dev color region brightness).report_byte 1 = 2 ∧
        (set_color H T dev color region brightness).report_byte 2 = 64 ∧
        (set_color H T dev color region brightness).report_byte 7 = 236) ∧
      ((set_mode H T dev mode).report_byte 0 = 1 ∧
        (set_mode H T dev mode).report_byte 1 = 2 ∧
        (set_mode H T dev mode).report_byte 2 = 65 ∧
        (set_mode H T dev mode).report_byte 7 = 236) ∧
      (∀ i ∈ [0, 1, 2, 7],
        (set_color H T dev color region brightness).report_byte i
          = (set_color H T' dev' color' region' brightness').report_byte i) ∧
      (∀ i ∈ [0, 1, 2, 7],
        (set_mode H T dev mode).report_byte i = (set_mode H T' dev' mode').report_byte i) ∧
      (∀ i ∈ [0, 1, 7],
        (set_color H T dev color region brightness).report_byte i
          = (set_mode H T' dev' mode').report_byte i) := by
  obtain ⟨r, g, b, hc⟩ := set_color_sent_shape H T dev color region brightness hregion
  obtain ⟨r', g', b', hc'⟩ :=
    set_color_sent_shape H T' dev' color' region' brightness' hregion'
  have hm : (set_mode H T dev mode).sent = [([1, 2, 65, toByte mode, 0, 0, 0, 236], 8)] := by
    rw [set_mode_valid H T dev mode hmode]
  have hm' : (set_mode H T' dev' mode').sent
      = [([1, 2, 65, toByte mode', 0, 0, 0, 236], 8)] := by
    rw [set_mode_valid H T' dev' mode' hmode']
  refine ⟨⟨[1, 2, 64, toByte region, r, g, b, 236], rfl, hc⟩,
    ⟨[1, 2, 65, toByte mode, 0, 0, 0, 236], rfl, hm⟩, ?_, ?_, ?_, ?_, ?_⟩
  · simp [report_byte_of_sent _ _ _ _ hc]
  · simp [report_byte_of_sent _ _ _ _ hm]
  · intro i hi
    rw [report_byte_of_sent _ _ _ i hc, report_byte_of_sent _ _ _ i hc']
    simp only [List.mem_cons, List.mem_singleton, List.not_mem_nil, or_false] at hi
    rcases hi with rfl | rfl | rfl | rfl <;> rfl
  · intro i hi
    rw [report_byte_of_sent _ _ _ i hm, report_byte_of_sent _ _ _ i hm']
    simp only [List.mem_cons, List.mem_singleton, List.not_mem_nil, or_false] at hi
    rcases hi with rfl | rfl | rfl | rfl <;> rfl
  · intro i hi
    rw [report_byte_of_sent _ _ _ i hc, report_byte_of_sent _ _ _ i hm']
    simp only [List.mem_cons, List.mem_singleton, List.not_mem_nil, or_false] at hi
    rcases hi with rfl | rfl | rfl <;> rfl

/-- Witness of C13 (amended): a low-brightness set-color report against a set-mode report
at the sample header agree on byte 7. -/
theorem report_layout_witness :
    sample_header.logo ∈ sample_header.regions ∧
      sample_header.demo ∈ sample_header.modes ∧
      (∀ i ∈ [0, 1, 7],
        (set_color sample_header counting_transport 0 ⟨9, 8, 7⟩ sample_header.logo
            sample_header.low).report_byte i
          = (set_mode sample_header failing_transport 5 sample_header.demo).report_byte i) :=
  ⟨by decide, by decide,
    (report_layout sample_header counting_transport failing_transport 0 5 ⟨9, 8, 7⟩
      ⟨1, 1, 1⟩ sample_header.logo sample_header.mouse sample_header.low sample_header.off
      sample_header.gaming sample_header.demo (by decide) (by decide) (by decide)
      (by decide)).2.2.2.2.2.2⟩


/-! ## C14, C15: tolerant decoding and atomicity of `parse_color` -/

theorem is_hex_digit_iff (c : Nat) :
    is_hex_digit c ↔ (48 ≤ c ∧ c ≤ 57) ∨ (65 ≤ c ∧ c ≤ 70) ∨ (97 ≤ c ∧ c ≤ 102) := by
  have h : cstr "0123456789ABCDEFabcdef" = [48, 49, 50, 51, 52, 53, 54, 55, 56, 57, 65, 66,
      67, 68, 69, 70, 97, 98, 99, 100, 101, 102] := by decide
  unfold is_hex_digit
  rw [h]
  simp only [List.mem_cons, List.mem_singleton, List.not_mem_nil, or_false]
  omega

/-- The function `hex` computes the tolerant digit value, which is below 16. -/
theorem hex_eq_tolerant_value (c : Nat) :
    hex c = (tolerant_value c : Int) ∧ tolerant_value c < 16 := by
  unfold tolerant_value
  by_cases h : is_hex_digit c
  · obtain ⟨he, _, hb⟩ := hex_of_is_hex_digit h
    simp [h, he, hb]
  · have hr := (not_congr (is_hex_digit_iff c)).1 h
    have h1 : ¬ (48 ≤ c ∧ c ≤ 57) := fun x => hr (Or.inl x)
    have h2 : ¬ (65 ≤ c ∧ c ≤ 70) := fun x => hr (Or.inr (Or.inl x))
    have h3 : ¬ (97 ≤ c ∧ c ≤ 102) := fun x => hr (Or.inr (Or.inr x))
    simp [h, hex, h1, h2, h3]

theorem toByte_hex_pair (a b : Nat) :
    toByte (hex a * 16 + hex b) = tolerant_pair a b := by
  obtain ⟨ea, ha⟩ := hex_eq_tolerant_value a
  obtain ⟨eb, hb⟩ := hex_eq_tolerant_value b
  rw [ea, eb, toByte_pair ha hb]
  rfl

/-- C14: for every token `"0x"` followed by exactly 6 characters `parse_color` returns 0,
whether or not the characters are hexadecimal digits, and a character that is not one
counts as the digit 0; `"0xZZ12g4"` gives (0, 18, 4). With the prefix `"0x"` the call fails
only when the number of characters after it is not 6. -/
theorem parse_color_tolerant (H : Header) (r0 : color_t) (body : List Nat)
    (hlen : body.length = 6) (hnul : NulFree body) :
    parse_color H (some (cstr "0x" ++ body)) r0
        = (0, { red := tolerant_pair (body.getD 0 0) (body.getD 1 0),
                green := tolerant_pair (body.getD 2 0) (body.getD 3 0),
                blue := tolerant_pair (body.getD 4 0) (body.getD 5 0) })
      ∧ parse_color H (some (cstr "0xZZ12g4")) r0 = (0, { red := 0, green := 18, blue := 4 })
      ∧ (∀ rest : List Nat, NulFree rest →
          (parse_color H (some (cstr "0x" ++ rest)) r0).1 = -1 → rest.length ≠ 6) := by
  refine ⟨?_, rfl, ?_⟩
  · have hl : strlen body = 6 := by rw [strlen_eq_length body hnul, hlen]
    simp [parse_color, cstr_0x, char_at, advance, hl, toByte_hex_pair]
  · intro rest hrest hfail h6
    have h0 := (parse_color_0x H r0 rest hrest).2 h6
    rw [cstr_0x] at hfail
    change (parse_color H (some (48 :: 120 :: rest)) r0).1 = -1 at hfail
    rw [h0] at hfail
    exact absurd hfail (by decide)

/-- Witness of C14 at the body `"#?12g4"`, with three characters that are no digits. -/
theorem parse_color_tolerant_witness :
    (cstr "#?12g4").length = 6 ∧ NulFree (cstr "#?12g4") ∧
      parse_color sample_header (some (cstr "0x#?12g4")) ⟨7, 7, 7⟩
        = (0, { red := 0, green := 18, blue := 4 }) :=
  ⟨by decide, by decide,
    (parse_color_tolerant sample_header ⟨7, 7, 7⟩ (cstr "#?12g4") (by decide)
      (by decide)).1⟩

/-- C15: whenever `parse_color` returns -1 the caller's result color is exactly what it
was before the call; the result differs from its old content only when the call
returns 0. -/
theorem parse_color_atomic (H : Header) (tok : Option (List Nat)) (r0 : color_t) :
    ((parse_color H tok r0).1 = -1 → (parse_color H tok r0).2 = r0) ∧
      ((parse_color H tok r0).2 ≠ r0 → (parse_color H tok r0).1 = 0) := by
  have key : (parse_color H tok r0).1 = -1 → (parse_color H tok r0).2 = r0 := by
    unfold parse_color
    cases tok with
    | none => intro _; rfl
    | some s =>
      simp only
      split
      · split
        · intro h; exact absurd (show (0 : Int) = -1 from h) (by decide)
        · intro _; rfl
      · split
        · intro h; exact absurd (show (0 : Int) = -1 from h) (by decide)
        · intro _; rfl
  refine ⟨key, fun hne => ?_⟩
  rcases parse_color_ret H tok r0 with h | h
  · exact h
  · exact absurd (key h) hne

/-- Witness of C15: the absent token, the unknown name `"Red"` and the short body
`"0x12345"` leave the color (7, 8, 9) in place. -/
theorem parse_color_atomic_witness :
    parse_color sample_header none ⟨7, 8, 9⟩ = (-1, ⟨7, 8, 9⟩) ∧
      (parse_color sample_header (some (cstr "Red")) ⟨7, 8, 9⟩).2 = ⟨7, 8, 9⟩ ∧
      (parse_color sample_header (some (cstr "0x12345")) ⟨7, 8, 9⟩).2 = ⟨7, 8, 9⟩ :=
  ⟨rfl,
    (parse_color_atomic sample_header (some (cstr "Red")) ⟨7, 8, 9⟩).1 (by decide),
    (parse_color_atomic sample_header (some (cstr "0x12345")) ⟨7, 8, 9⟩).1 (by decide)⟩


/-! ## C16, C17: values outside the enumerations -/

/-- The whole outcome of `set_color` when the brightness is none of medium, low, off. -/
theorem set_color_plain_outcome {σ : Type} (H : Header) (T : Transport σ) (dev : σ)
    (color : color_t) (region brightness : Int) (hregion : region ∈ H.regions)
    (hb : ¬ (brightness = H.medium ∨ brightness = H.low ∨ brightness = H.off)) :
    set_color H T dev color region brightness
      = { ret := (T.hid_send_feature_report dev
            [1, 2, 64, toByte region, color.red, color.green, color.blue, 236] 8).1,
          dev := (T.hid_send_feature_report dev
            [1, 2, 64, toByte region, color.red, color.green, color.blue, 236] 8).2,
          sent := [([1, 2, 64, toByte region, color.red, color.green, color.blue, 236], 8)] } := by
  unfold set_color
  rw [if_pos (mem_regions.1 hregion)]
  simp only [hb, if_false]

theorem not_attenuated_of_not_mem {H : Header} {brightness : Int}
    (h : brightness ∉ [H.off, H.low, H.medium]) :
    ¬ (brightness = H.medium ∨ brightness = H.low ∨ brightness = H.off) := by
  simp only [List.mem_cons, List.mem_singleton, List.not_mem_nil, or_false] at h
  tauto

/-- C16: for every valid region and every brightness value that is none of off, low,
medium (high, but also an out-of-range value such as the -1 of `parse_brightness`),
`set_color` sends the color unchanged in the report `[1, 2, 64, region, r, g, b, 236]` and
returns what the transport returned: such a value is not rejected and the call does
exactly what it does for high. -/
theorem set_color_unattenuated {σ : Type} (H : Header) (T : Transport σ) (dev : σ)
    (color : color_t) (region brightness : Int) (hregion : region ∈ H.regions)
    (hb : brightness ∉ [H.off, H.low, H.medium]) :
    (set_color H T dev color region brightness).sent
        = [([1, 2, 64, toByte region, color.red, color.green, color.blue, 236], 8)] ∧
      (set_color H T dev color region brightness).ret
        = (T.hid_send_feature_report dev
            [1, 2, 64, toByte region, color.red, color.green, color.blue, 236] 8).1 ∧
      (H.high ∉ [H.off, H.low, H.medium] →
        set_color H T dev color region brightness = set_color H T dev color region H.high) ∧
      (∀ tok : Option (List Nat), (∀ s, tok = some s → NulFree s) →
        ¬ is_word brightness_words tok → (-1 : Int) ∉ [H.off, H.low, H.medium] →
        (set_color H T dev color region (parse_brightness H tok)).sent
          = [([1, 2, 64, toByte region, color.red, color.green, color.blue, 236], 8)]) := by
  have h := set_color_plain_outcome H T dev color region brightness hregion
    (not_attenuated_of_not_mem hb)
  refine ⟨by rw [h], by rw [h], ?_, ?_⟩
  · intro hh
    rw [h, set_color_plain_outcome H T dev color region H.high hregion
      (not_attenuated_of_not_mem hh)]
  · intro tok hwf hw hs
    rw [parse_brightness_other H tok hwf hw]
    exact set_color_plain H T dev color region (-1) hregion (not_attenuated_of_not_mem hs)

/-- Witness of C16: the brightness -1 at the sample header. -/
theorem set_color_unattenuated_witness :
    sample_header.right ∈ sample_header.regions ∧
      (-1 : Int) ∉ [sample_header.off, sample_header.low, sample_header.medium] ∧
      (set_color sample_header counting_transport 0 ⟨10, 20, 30⟩ sample_header.right
          (-1)).sent = [([1, 2, 64, 3, 10, 20, 30, 236], 8)] ∧
      (set_color sample_header counting_transport 0 ⟨10, 20, 30⟩ sample_header.right
          (-1)).ret = 8 :=
  ⟨by decide, by decide,
    (set_color_unattenuated sample_header counting_transport 0 ⟨10, 20, 30⟩
      sample_header.right (-1) (by decide) (by decide)).1,
    (set_color_unattenuated sample_header counting_transport 0 ⟨10, 20, 30⟩
      sample_header.right (-1) (by decide) (by decide)).2.1⟩

/-- A mode word parses to a valid mode. -/
theorem parse_mode_word_mem (H : Header) (w : List Nat) (hw : w ∈ mode_words) :
    parse_mode H (some w) ∈ H.modes := by
  rw [mode_words_eq] at hw
  simp only [List.mem_cons, List.mem_singleton, List.not_mem_nil, or_false] at hw
  rcases hw with rfl | rfl | rfl | rfl | rfl
  · exact List.mem_cons_self _ _
  · exact List.mem_cons_of_mem _ (List.mem_cons_self _ _)
  · exact List.mem_cons_of_mem _ (List.mem_cons_of_mem _ (List.mem_cons_self _ _))
  · exact List.mem_cons_of_mem _ (List.mem_cons_of_mem _
      (List.mem_cons_of_mem _ (List.mem_cons_self _ _)))
  · exact List.mem_cons_of_mem _ (List.mem_cons_of_mem _
      (List.mem_cons_of_mem _ (List.mem_cons_of_mem _ (List.mem_cons_self _ _))))

/-- The outcome of `set_mode` for a value that is no valid mode. -/
theorem set_mode_rejected {σ : Type} (H : Header) (T : Transport σ) (dev : σ) (mode : Int)
    (hmode : mode ∉ H.modes) :
    set_mode H T dev mode = { ret := -1, dev := dev, sent := [] } := by
  unfold set_mode
  rw [if_pos (not_mem_modes.1 hmode)]

/-- The sentinel -1 of `parse_mode` is none of the mode codes of the spec, which are byte
values. -/
theorem sentinel_not_mode_code (H : Header) (hspec : H.mode_codes_per_spec) :
    (-1 : Int) ∉ H.modes := by
  intro h
  have h0 := (hspec.2 (-1) h).1
  omega

/-- C17: with the mode codes of the spec (distinct byte values), the sentinel -1 of
`parse_mode` is no valid mode code, and `set_mode` applied to the result of `parse_mode`
sends a report if and only if the token is exactly one of the five mode words; byte 3 of
that report is the code of the word. For every other token, the absent one included,
`set_mode` returns -1, sends nothing and leaves the device as it was. -/
theorem set_mode_parse_mode {σ : Type} (H : Header) (T : Transport σ) (dev : σ)
    (tok : Option (List Nat)) (hwf : ∀ s, tok = some s → NulFree s)
    (hspec : H.mode_codes_per_spec) :
    (-1 : Int) ∉ H.modes ∧
      ((set_mode H T dev (parse_mode H tok)).sent ≠ [] ↔ is_word mode_words tok) ∧
      (¬ is_word mode_words tok →
        (set_mode H T dev (parse_mode H tok)).ret = -1 ∧
        (set_mode H T dev (parse_mode H tok)).sent = [] ∧
        (set_mode H T dev (parse_mode H tok)).dev = dev) ∧
      ((((set_mode H T dev (parse_mode H (some (cstr "normal")))).report_byte 3 : Nat) : Int)
          = H.normal ∧
        (((set_mode H T dev (parse_mode H (some (cstr "gaming")))).report_byte 3 : Nat) : Int)
          = H.gaming ∧
        (((set_mode H T dev (parse_mode H (some (cstr "breathe")))).report_byte 3 : Nat) : Int)
          = H.breathe ∧
        (((set_mode H T dev (parse_mode H (some (cstr "demo")))).report_byte 3 : Nat) : Int)
          = H.demo ∧
        (((set_mode H T dev (parse_mode H (some (cstr "wave")))).report_byte 3 : Nat) : Int)
          = H.wave) ∧
      (set_mode H T dev (parse_mode H none)).ret = -1 ∧
      (set_mode H T dev (parse_mode H none)).sent = [] := by
  have hs : (-1 : Int) ∉ H.modes := sentinel_not_mode_code H hspec
  have hrej : ¬ is_word mode_words tok →
      set_mode H T dev (parse_mode H tok) = { ret := -1, dev := dev, sent := [] } := by
    intro hw
    rw [parse_mode_other H tok hwf hw]
    exact set_mode_rejected H T dev (-1) hs
  have hbyte : ∀ w ∈ mode_words,
      (((set_mode H T dev (parse_mode H (some w))).report_byte 3 : Nat) : Int)
        = parse_mode H (some w) := by
    intro w hw
    have hmem := parse_mode_word_mem H w hw
    rw [set_mode_valid H T dev _ hmem]
    exact toByte_of_byte (hspec.2 _ hmem).1 (hspec.2 _ hmem).2
  have hnone : set_mode H T dev (parse_mode H none)
      = { ret := -1, dev := dev, sent := [] } :=
    set_mode_rejected H T dev (-1) hs
  refine ⟨hs, ⟨?_, ?_⟩, fun hw => by rw [hrej hw]; exact ⟨rfl, rfl, rfl⟩,
    ⟨hbyte _ (by decide), hbyte _ (by decide), hbyte _ (by decide), hbyte _ (by decide),
      hbyte _ (by decide)⟩, by rw [hnone], by rw [hnone]⟩
  · intro hsent
    by_contra hw
    rw [hrej hw] at hsent
    exact hsent rfl
  · rintro ⟨w, hw, rfl⟩
    rw [set_mode_valid H T dev _ (parse_mode_word_mem H w hw)]
    simp

/-- Witness of C17: at the sample header, whose mode codes are distinct bytes, the token
`"demo"` is sent with code 4 and the token `"bogus"` is rejected by `set_mode`. -/
theorem set_mode_parse_mode_witness :
    (∀ s, some (cstr "bogus") = some s → NulFree s) ∧
      sample_header.mode_codes_per_spec ∧
      (-1 : Int) ∉ sample_header.modes ∧
      (((set_mode sample_header counting_transport 0
          (parse_mode sample_header (some (cstr "demo")))).report_byte 3 : Nat) : Int)
        = sample_header.demo ∧
      (¬ is_word mode_words (some (cstr "bogus")) →
        (set_mode sample_header counting_transport 0
            (parse_mode sample_header (some (cstr "bogus")))).ret = -1 ∧
        (set_mode sample_header counting_transport 0
            (parse_mode sample_header (some (cstr "bogus")))).sent = [] ∧
        (set_mode sample_header counting_transport 0
            (parse_mode sample_header (some (cstr "bogus")))).dev = 0) :=
  ⟨by intro s h; cases h; decide, by decide,
    (set_mode_parse_mode sample_header counting_transport 0 (some (cstr "bogus"))
      (by intro s h; cases h; decide) (by decide)).1,
    (set_mode_parse_mode sample_header counting_transport 0 (some (cstr "bogus"))
      (by intro s h; cases h; decide) (by decide)).2.2.2.1.2.2.2.1,
    (set_mode_parse_mode sample_header counting_transport 0 (some (cstr "bogus"))
      (by intro s h; cases h; decide) (by decide)).2.2.1⟩

end MSIKLM
